import Mathlib

/-!
Shallow embedding of the `midly` style-file decoders (src/casm.rs, src/ctab.rs,
src/mdb.rs, src/mh.rs, src/ots.rs) together with theorems settling the
specification claims.  Bytes are modelled as `Nat` (values below 256), byte
buffers as `List Nat`, fallible decoding as `Except DecodeError`.  The Rust
compile-time feature flag `strict` is modelled as an explicit `Policy`
parameter threaded through every decoder, exactly as the specification's
design notes prescribe for a verification model.
-/

set_option maxRecDepth 4000

namespace Midly

/-- Failure policy: the Rust code's compile-time `strict` feature flag,
made explicit. `lenient` is the default build. -/
inductive Policy
  | strict
  | lenient
deriving DecidableEq

/-- Error kinds used by the crate's `err_invalid!` and `err_malformed!` macros. -/
inductive ErrKind
  | invalid
  | malformed
deriving DecidableEq

/-- A decode error: kind plus the message given at the `bail!` site. -/
structure DecodeError where
  kind : ErrKind
  msg : String
deriving DecidableEq

/-- Version of a CTAB chunk, from src/ctab.rs (`enum Version`). -/
inductive Version
  | ctab1
  | ctab2
  | guitar
deriving DecidableEq

/-- Standard keys used in style files, from src/ctab.rs (`enum Key`). -/
inductive Key
  | c
  | cs
  | d
  | eb
  | e
  | f
  | fs
  | g
  | gs
  | a
  | bb
  | b
deriving DecidableEq

/-- `impl TryFrom<u8> for Key` (src/ctab.rs lines 283-305). -/
def Key.tryFrom (value : Nat) : Except DecodeError Key :=
  match value with
  | 0x00 => .ok .c
  | 0x01 => .ok .cs
  | 0x02 => .ok .d
  | 0x03 => .ok .eb
  | 0x04 => .ok .e
  | 0x05 => .ok .f
  | 0x06 => .ok .fs
  | 0x07 => .ok .g
  | 0x08 => .ok .gs
  | 0x09 => .ok .a
  | 0x0A => .ok .bb
  | 0x0B => .ok .b
  | _ => .error ⟨.invalid, "invalid key value"⟩

/-- Chord variants found in style files, from src/ctab.rs (`enum Chord`, 37 variants). -/
inductive Chord
  | maj
  | maj6
  | maj7
  | maj7s11
  | maj9
  | maj7_9
  | maj6_9
  | aug
  | min
  | min6
  | min7
  | min7b5
  | min9
  | min7_9
  | min7_11
  | minMaj7
  | minMaj7_9
  | dim
  | dim7
  | seven
  | sevenSus4
  | sevenB5
  | seven9
  | sevenS11
  | seven13
  | sevenB9
  | sevenB13
  | sevenS9
  | maj7aug
  | sevenAug
  | onePlusEight
  | onePlusFive
  | sus4
  | onePlusTwoPlus5
  | cancel
  | specialAutostart
  | specialPercussion
deriving DecidableEq

/-- `impl TryFrom<u8> for Chord` (src/ctab.rs lines 353-399). -/
def Chord.tryFrom (value : Nat) : Except DecodeError Chord :=
  match value with
  | 0x00 => .ok .maj
  | 0x01 => .ok .maj6
  | 0x02 => .ok .maj7
  | 0x03 => .ok .maj7s11
  | 0x04 => .ok .maj9
  | 0x05 => .ok .maj7_9
  | 0x06 => .ok .maj6_9
  | 0x07 => .ok .aug
  | 0x08 => .ok .min
  | 0x09 => .ok .min6
  | 0x0A => .ok .min7
  | 0x0B => .ok .min7b5
  | 0x0C => .ok .min9
  | 0x0D => .ok .min7_9
  | 0x0E => .ok .min7_11
  | 0x0F => .ok .minMaj7
  | 0x10 => .ok .minMaj7_9
  | 0x11 => .ok .dim
  | 0x12 => .ok .dim7
  | 0x13 => .ok .seven
  | 0x14 => .ok .sevenSus4
  | 0x15 => .ok .sevenB5
  | 0x16 => .ok .seven9
  | 0x17 => .ok .sevenS11
  | 0x18 => .ok .seven13
  | 0x19 => .ok .sevenB9
  | 0x1A => .ok .sevenB13
  | 0x1B => .ok .sevenS9
  | 0x1C => .ok .maj7aug
  | 0x1D => .ok .sevenAug
  | 0x1E => .ok .onePlusEight
  | 0x1F => .ok .onePlusFive
  | 0x20 => .ok .sus4
  | 0x21 => .ok .onePlusTwoPlus5
  | 0x22 => .ok .cancel
  | _ => .error ⟨.invalid, "unknown chord"⟩

/-- Retrigger rules, from src/ctab.rs (`enum RetriggerRule`). -/
inductive RetriggerRule
  | stop
  | pitchShift
  | pitchShiftToRoot
  | retrigger
  | retriggerToRoot
  | noteGenerator
deriving DecidableEq

/-- `impl TryFrom<u8> for RetriggerRule` (src/ctab.rs lines 412-428). -/
def RetriggerRule.tryFrom (value : Nat) : Except DecodeError RetriggerRule :=
  match value with
  | 0x00 => .ok .stop
  | 0x01 => .ok .pitchShift
  | 0x02 => .ok .pitchShiftToRoot
  | 0x03 => .ok .retrigger
  | 0x04 => .ok .retriggerToRoot
  | 0x05 => .ok .noteGenerator
  | _ => .error ⟨.invalid, "unknown retrigger rule"⟩

/-- Note transposition types, from src/ctab.rs (`enum TranspositionType`);
`rootTransposition` is the `#[default]` variant. -/
inductive TranspositionType
  | rootTransposition
  | rootFixed
  | guitar
deriving DecidableEq

/-- `impl TryFrom<(u8, Version)> for TranspositionType` (src/ctab.rs lines 438-464). -/
def TranspositionType.tryFrom (pol : Policy) (value : Nat) (version : Version) :
    Except DecodeError TranspositionType :=
  match value with
  | 0x00 => .ok .rootTransposition
  | 0x01 => .ok .rootFixed
  | 0x02 =>
    if version = .ctab1 ∧ pol = .strict then
      .error ⟨.invalid, "Guitar transposition mode in SFFv1"⟩
    else
      .ok .guitar
  | _ =>
    if pol = .strict then
      .error ⟨.invalid, "unknown transposition mode"⟩
    else
      .ok .rootTransposition

/-- Note transposition tables, from src/ctab.rs (`enum TranspositionTable`);
`bypass` is the `#[default]` variant. -/
inductive TranspositionTable
  | bypass
  | melody
  | chord
  | melodicMinor
  | harmonicMinor
  | melodicMinor5th
  | harmonicMinor5th
  | naturalMinor
  | naturalMinor5th
  | dorian
  | dorian5th
  | bass
  | allPurpose
  | stroke
  | arpeggio
deriving DecidableEq

/-- `impl TryFrom<(u8, Version)> for TranspositionTable` (src/ctab.rs lines 489-523).
The most significant bit (bass on) is masked away; Rust guard patterns are
rendered as ordered matches with explicit conditionals. -/
def TranspositionTable.tryFrom (pol : Policy) (value : Nat) (version : Version) :
    Except DecodeError TranspositionTable :=
  match value &&& 0x7F, version with
  | 0x00, .guitar => .ok .allPurpose
  | 0x00, _ => .ok .bypass
  | 0x01, .guitar => .ok .stroke
  | 0x01, _ => .ok .melody
  | 0x02, .guitar => .ok .arpeggio
  | 0x02, _ => .ok .chord
  | 0x03, .ctab1 => .ok .bass
  | 0x03, _ => .ok .melodicMinor
  | 0x04, .ctab1 => .ok .melodicMinor
  | 0x04, _ => .ok .melodicMinor5th
  | 0x05, _ => .ok .harmonicMinor
  | n + 6, ver =>
    if ver = .ctab1 ∧ pol = .strict then
      .error ⟨.invalid, "transposition table not valid in SFFv1"⟩
    else
      match n with
      | 0x00 => .ok .harmonicMinor5th
      | 0x01 => .ok .naturalMinor
      | 0x02 => .ok .naturalMinor5th
      | 0x03 => .ok .dorian
      | 0x04 => .ok .dorian5th
      | _ =>
        if pol = .strict then
          .error ⟨.invalid, "unknown transposition table"⟩
        else
          .ok .bypass

/-- Known style sections, from src/casm.rs (`enum StylePart`, 17 variants). -/
inductive StylePart
  | introA
  | introB
  | introC
  | introD
  | mainA
  | mainB
  | mainC
  | mainD
  | fillInAA
  | fillInBB
  | fillInCC
  | fillInDD
  | fillInBA
  | endingA
  | endingB
  | endingC
  | endingD
deriving DecidableEq

/-- `impl TryFrom<&str> for StylePart` (src/casm.rs lines 119-145). -/
def StylePart.tryFromStr (value : String) : Except DecodeError StylePart :=
  match value with
  | "Intro A" => .ok .introA
  | "Intro B" => .ok .introB
  | "Intro C" => .ok .introC
  | "Intro D" => .ok .introD
  | "Main A" => .ok .mainA
  | "Main B" => .ok .mainB
  | "Main C" => .ok .mainC
  | "Main D" => .ok .mainD
  | "Fill In AA" => .ok .fillInAA
  | "Fill In BB" => .ok .fillInBB
  | "Fill In CC" => .ok .fillInCC
  | "Fill In DD" => .ok .fillInDD
  | "Fill In BA" => .ok .fillInBA
  | "Ending A" => .ok .endingA
  | "Ending B" => .ok .endingB
  | "Ending C" => .ok .endingC
  | "Ending D" => .ok .endingD
  | _ => .error ⟨.invalid, "invalid style part"⟩

/-- `impl From<StylePart> for &str` (src/casm.rs lines 147-169). -/
def StylePart.strFrom (value : StylePart) : String :=
  match value with
  | .introA => "Intro A"
  | .introB => "Intro B"
  | .introC => "Intro C"
  | .introD => "Intro D"
  | .mainA => "Main A"
  | .mainB => "Main B"
  | .mainC => "Main C"
  | .mainD => "Main D"
  | .fillInAA => "Fill In AA"
  | .fillInBB => "Fill In BB"
  | .fillInCC => "Fill In CC"
  | .fillInDD => "Fill In DD"
  | .fillInBA => "Fill In BA"
  | .endingA => "Ending A"
  | .endingB => "Ending B"
  | .endingC => "Ending C"
  | .endingD => "Ending D"

/-- ASCII bytes of the canonical name of a style part:
`impl From<StylePart> for &[u8]` (src/casm.rs lines 199-221), with the
source's byte-string literals written out as ASCII codes. -/
def StylePart.bytesFrom (value : StylePart) : List Nat :=
  match value with
  | .introA => [73, 110, 116, 114, 111, 32, 65]
  | .introB => [73, 110, 116, 114, 111, 32, 66]
  | .introC => [73, 110, 116, 114, 111, 32, 67]
  | .introD => [73, 110, 116, 114, 111, 32, 68]
  | .mainA => [77, 97, 105, 110, 32, 65]
  | .mainB => [77, 97, 105, 110, 32, 66]
  | .mainC => [77, 97, 105, 110, 32, 67]
  | .mainD => [77, 97, 105, 110, 32, 68]
  | .fillInAA => [70, 105, 108, 108, 32, 73, 110, 32, 65, 65]
  | .fillInBB => [70, 105, 108, 108, 32, 73, 110, 32, 66, 66]
  | .fillInCC => [70, 105, 108, 108, 32, 73, 110, 32, 67, 67]
  | .fillInDD => [70, 105, 108, 108, 32, 73, 110, 32, 68, 68]
  | .fillInBA => [70, 105, 108, 108, 32, 73, 110, 32, 66, 65]
  | .endingA => [69, 110, 100, 105, 110, 103, 32, 65]
  | .endingB => [69, 110, 100, 105, 110, 103, 32, 66]
  | .endingC => [69, 110, 100, 105, 110, 103, 32, 67]
  | .endingD => [69, 110, 100, 105, 110, 103, 32, 68]

/-- `impl TryFrom<&[u8]> for StylePart` (src/casm.rs lines 171-197):
matches the byte span against the 17 canonical ASCII names, with the
source's byte-string literals written out as ASCII codes. -/
def StylePart.tryFromBytes (value : List Nat) : Except DecodeError StylePart :=
  match value with
  | [73, 110, 116, 114, 111, 32, 65] => .ok .introA
  | [73, 110, 116, 114, 111, 32, 66] => .ok .introB
  | [73, 110, 116, 114, 111, 32, 67] => .ok .introC
  | [73, 110, 116, 114, 111, 32, 68] => .ok .introD
  | [77, 97, 105, 110, 32, 65] => .ok .mainA
  | [77, 97, 105, 110, 32, 66] => .ok .mainB
  | [77, 97, 105, 110, 32, 67] => .ok .mainC
  | [77, 97, 105, 110, 32, 68] => .ok .mainD
  | [70, 105, 108, 108, 32, 73, 110, 32, 65, 65] => .ok .fillInAA
  | [70, 105, 108, 108, 32, 73, 110, 32, 66, 66] => .ok .fillInBB
  | [70, 105, 108, 108, 32, 73, 110, 32, 67, 67] => .ok .fillInCC
  | [70, 105, 108, 108, 32, 73, 110, 32, 68, 68] => .ok .fillInDD
  | [70, 105, 108, 108, 32, 73, 110, 32, 66, 65] => .ok .fillInBA
  | [69, 110, 100, 105, 110, 103, 32, 65] => .ok .endingA
  | [69, 110, 100, 105, 110, 103, 32, 66] => .ok .endingB
  | [69, 110, 100, 105, 110, 103, 32, 67] => .ok .endingC
  | [69, 110, 100, 105, 110, 103, 32, 68] => .ok .endingD
  | _ => .error ⟨.invalid, "invalid style part"⟩

/-- Modelled from the spec: the crate's `SplitChecked::split_checked` primitive
(defined in the prelude, outside src/): split off the first `n` bytes if that
many are available, otherwise yield nothing. -/
def splitChecked (n : Nat) (v : List Nat) : Option (List Nat × List Nat) :=
  if n ≤ v.length then some (v.take n, v.drop n) else none

/-- Modelled from the spec: `u8::read`, read one byte from the buffer. -/
def u8read (v : List Nat) : Except DecodeError (Nat × List Nat) :=
  match v with
  | [] => .error ⟨.malformed, "unexpected end of data"⟩
  | b :: rest => .ok (b, rest)

/-- Modelled from the spec: `u4::read`, read one byte, keep the low nibble. -/
def u4read (v : List Nat) : Except DecodeError (Nat × List Nat) :=
  match v with
  | [] => .error ⟨.malformed, "unexpected end of data"⟩
  | b :: rest => .ok (b &&& 0xF, rest)

/-- Modelled from the spec: `u7::read`, read one byte, keep the low 7 bits. -/
def u7read (v : List Nat) : Except DecodeError (Nat × List Nat) :=
  match v with
  | [] => .error ⟨.malformed, "unexpected end of data"⟩
  | b :: rest => .ok (b &&& 0x7F, rest)

/-- Modelled from the spec: `u24::read`, read a 24-bit big-endian integer. -/
def u24read (v : List Nat) : Except DecodeError (Nat × List Nat) :=
  match v with
  | b0 :: b1 :: b2 :: rest => .ok ((b0 * 256 + b1) * 256 + b2, rest)
  | _ => .error ⟨.malformed, "unexpected end of data"⟩

/-- Turn an optional value into a decode result, as the source's
`match ... { Some(v) => v, None => bail!(...) }` idiom does. -/
def okOrElse (x : Option α) (e : DecodeError) : Except DecodeError α :=
  match x with
  | some a => .ok a
  | none => .error e

/-- Whether a byte is a UTF-8 continuation byte (0x80-0xBF). -/
def utf8Cont (b : Nat) : Bool := 0x80 ≤ b && b ≤ 0xBF

/-- First continuation byte constraint for a 3-byte UTF-8 sequence headed by `b`. -/
def utf8Cont3 (b c : Nat) : Bool :=
  if b = 0xE0 then 0xA0 ≤ c && c ≤ 0xBF
  else if b = 0xED then 0x80 ≤ c && c ≤ 0x9F
  else utf8Cont c

/-- First continuation byte constraint for a 4-byte UTF-8 sequence headed by `b`. -/
def utf8Cont4 (b c : Nat) : Bool :=
  if b = 0xF0 then 0x90 ≤ c && c ≤ 0xBF
  else if b = 0xF4 then 0x80 ≤ c && c ≤ 0x8F
  else utf8Cont c

/-- UTF-8 validity of a byte sequence, as checked by `std::str::from_utf8`. -/
def utf8Valid : List Nat → Bool
  | [] => true
  | b :: rest =>
    if b < 0x80 then utf8Valid rest
    else if b < 0xC2 then false
    else if b < 0xE0 then
      match rest with
      | c1 :: r => utf8Cont c1 && utf8Valid r
      | [] => false
    else if b < 0xF0 then
      match rest with
      | c1 :: c2 :: r => utf8Cont3 b c1 && utf8Cont c2 && utf8Valid r
      | _ => false
    else if b < 0xF5 then
      match rest with
      | c1 :: c2 :: c3 :: r => utf8Cont4 b c1 && utf8Cont c2 && utf8Cont c3 && utf8Valid r
      | _ => false
    else false

/-- Whether a byte is ASCII whitespace (for `str::trim` on the name field). -/
def wsByte (b : Nat) : Bool := b = 0x20 || b = 0x09 || b = 0x0A || b = 0x0C || b = 0x0D

/-- `str::trim` on the byte representation: drop leading and trailing whitespace. -/
def asciiTrim (l : List Nat) : List Nat :=
  ((l.dropWhile wsByte).reverse.dropWhile wsByte).reverse

/-- A note transposition table, from src/ctab.rs (`struct Table`). -/
structure Table where
  ntr : TranspositionType
  ntt : TranspositionTable
  bass_on : Bool
  high_key : Key
  note_range : Nat × Nat
  retrigger_rule : RetriggerRule
deriving DecidableEq

/-- `impl TryFrom<(&[u8], Version)> for Table` (src/ctab.rs lines 542-561). -/
def Table.tryFrom (pol : Policy) (value : List Nat) (version : Version) :
    Except DecodeError Table :=
  if value.length < 6 then .error ⟨.malformed, "data field too small"⟩
  else
    match TranspositionType.tryFrom pol (value.getD 0 0) version with
    | .error e => .error e
    | .ok ntr =>
      match TranspositionTable.tryFrom pol (value.getD 1 0) version with
      | .error e => .error e
      | .ok ntt =>
        let bassOn := (value.getD 1 0 &&& 0x80 != 0) && decide (version = .ctab2)
        match Key.tryFrom (value.getD 2 0) with
        | .error e => .error e
        | .ok highKey =>
          let lo := value.getD 3 0 &&& 0x7F
          let hi := value.getD 4 0 &&& 0x7F
          match RetriggerRule.tryFrom (value.getD 5 0) with
          | .error e => .error e
          | .ok rr => .ok ⟨ntr, ntt, bassOn, highKey, (lo, hi), rr⟩

namespace Ctab

/-- `Ctab::read_note_mute` (src/ctab.rs lines 152-174): decode the 2-byte
note-mute field into a total map (the source's `HashMap` holds all 12 keys).
A pitch class is stored `true` exactly when its bit is cleared. -/
def readNoteMute (pol : Policy) (b0 b1 : Nat) : Except DecodeError (Key → Bool) :=
  if 0b1111 < b0 ∧ pol = .strict then
    .error ⟨.malformed, "note mute first nibble is not 0"⟩
  else
    .ok fun k =>
      match k with
      | .b => b0 &&& 0b1000 == 0
      | .bb => b0 &&& 0b0100 == 0
      | .a => b0 &&& 0b0010 == 0
      | .gs => b0 &&& 0b0001 == 0
      | .g => b1 &&& 0b10000000 == 0
      | .fs => b1 &&& 0b01000000 == 0
      | .f => b1 &&& 0b00100000 == 0
      | .e => b1 &&& 0b00010000 == 0
      | .eb => b1 &&& 0b00001000 == 0
      | .d => b1 &&& 0b00000100 == 0
      | .cs => b1 &&& 0b00000010 == 0
      | .c => b1 &&& 0b00000001 == 0

end Ctab

/-- The 36 chords addressed by the chord-mute bitfield, in bit order
(`chords_order` in `Ctab::read_chord_mute`, src/ctab.rs lines 228-243). -/
def chordsOrder : List Chord :=
  [ .specialPercussion, .specialAutostart, .onePlusTwoPlus5, .sus4,
    .onePlusFive, .onePlusEight, .sevenAug, .maj7aug,
    .sevenS9, .sevenB13, .sevenB9, .seven13,
    .sevenS11, .seven9, .sevenB5, .sevenSus4,
    .seven, .dim7, .dim, .minMaj7_9,
    .minMaj7, .min7_11, .min7_9, .min9,
    .min7b5, .min7, .min6, .min,
    .aug, .maj6_9, .maj7_9, .maj9,
    .maj7s11, .maj7, .maj6, .maj ]

namespace Ctab

/-- `Ctab::read_chord_mute` (src/ctab.rs lines 226-263): decode the 5-byte
chord-mute field into a partial map (the source's `HashMap`, modelled as a
function into `Option Bool`), inserting one entry per chord of `chordsOrder`. -/
def readChordMute (pol : Policy) (value : List Nat) :
    Except DecodeError (Chord → Option Bool) :=
  if 0b1111 < value.getD 0 0 ∧ pol = .strict then
    .error ⟨.malformed, "first nibble of chord mute field is not 0"⟩
  else
    .ok <| chordsOrder.enum.foldl
      (fun m p =>
        let pos := (p.1 + 4) % 8
        let curByte := (p.1 + 4) / 8
        let mask := 1 <<< (8 - pos - 1)
        let notMuted := value.getD curByte 0 &&& mask != 0
        fun x => if x = p.2 then some notMuted else m x)
      (fun _ => none)

end Ctab

/-- The crate's chunk type (`Chunk` in src/smf.rs, not part of src/): a
4-byte tag with a borrowed payload.  Variants are those matched on by the
decoders in src/; `other` stands for every remaining tag. -/
inductive Chunk
  | casm (data : List Nat)
  | cseg (data : List Nat)
  | sdec (data : List Nat)
  | ctab1 (data : List Nat)
  | ctab2 (data : List Nat)
  | cntt (data : List Nat)
  | mh (data : List Nat)
  | mdb (data : List Nat)
  | ots (data : List Nat)
  | record (data : List Nat)
  | songTitleData (data : List Nat)
  | genreTitleData (data : List Nat)
  | keyword1 (data : List Nat)
  | keyword2 (data : List Nat)
  | other (tag : List Nat) (data : List Nat)
deriving DecidableEq

/-- A decoded CTAB record, from src/ctab.rs (`struct Ctab`).  The name is the
decoded (trimmed) byte string; the two mute maps keep the source's `HashMap`
shape (total over the 12 keys, partial over the 37 chords). -/
structure Ctab where
  source : Nat
  name : List Nat
  dest : Nat
  editable : Bool
  note_mute : Key → Bool
  chord_mute : Chord → Option Bool
  source_chord : Key
  source_chord_type : Chord
  table : List Table
  range : Nat × Nat
  special : Option (List Nat)

namespace Ctab

/-- The name-field step of `Ctab::read` (src/ctab.rs lines 83-93): take 8
bytes, trim them if valid UTF-8; invalid UTF-8 is a malformed-data error
under strict and an empty string under lenient; fewer than 8 bytes is an
error under both policies. -/
def readName (pol : Policy) (value : List Nat) :
    Except DecodeError (List Nat × List Nat) := do
  let nr ← okOrElse (splitChecked 8 value) ⟨.invalid, "name field is not a string"⟩
  if utf8Valid nr.1 then .ok (asciiTrim nr.1, nr.2)
  else if pol = .strict then .error ⟨.malformed, "not a valid string for name"⟩
  else .ok ([], nr.2)

/-- The decoded 20-byte common prefix shared by CTAB1 and CTAB2
(the fields read by src/ctab.rs lines 82-104). -/
structure Common where
  source : Nat
  name : List Nat
  dest : Nat
  editable : Bool
  note_mute : Key → Bool
  chord_mute : Chord → Option Bool
  source_chord : Key
  source_chord_type : Chord

/-- The common-prefix part of `Ctab::read` (src/ctab.rs lines 82-104):
source nibble, 8-byte name, dest nibble, editable flag, 2-byte note mute,
5-byte chord mute, source key, source chord type.  The `?` operator of the
source is the `←` of the `Except` monad. -/
def readCommon (pol : Policy) (value : List Nat) :
    Except DecodeError (Common × List Nat) := do
  let sourceV ← u4read value
  let nameV ← readName pol sourceV.2
  let destV ← u4read nameV.2
  let edV ← u8read destV.2
  let m0V ← u8read edV.2
  let m1V ← u8read m0V.2
  let noteMute ← readNoteMute pol m0V.1 m1V.1
  let cmV ← okOrElse (splitChecked 5 m1V.2) ⟨.invalid, "not enough data for chord mute"⟩
  let chordMute ← readChordMute pol cmV.1
  let scV ← u8read cmV.2
  let sourceChord ← Key.tryFrom scV.1
  let sctV ← u8read scV.2
  let sourceChordType ← Chord.tryFrom sctV.1
  .ok (⟨sourceV.1, nameV.1, destV.1, edV.1 == 0, noteMute, chordMute,
        sourceChord, sourceChordType⟩, sctV.2)

/-- The version-dependent suffix of `Ctab::read` for CTAB2/Guitar
(src/ctab.rs lines 112-128): 2 middle-range boundary bytes, three 6-byte
tables (low, mid, high), then 7 special bytes (required under strict). -/
def readSuffix2 (pol : Policy) (com : Common) (value : List Nat) :
    Except DecodeError Ctab := do
  let r1V ← u7read value
  let r2V ← u7read r1V.2
  let dataV ←
    okOrElse (splitChecked (6 * 3) r2V.2) ⟨.malformed, "cannot construct transposition table"⟩
  let low ← Table.tryFrom pol (dataV.1.take 6) .ctab2
  let mid ← Table.tryFrom pol ((dataV.1.drop 6).take 6) .ctab2
  let high ← Table.tryFrom pol (dataV.1.drop 12) .ctab2
  let special := splitChecked 7 dataV.2
  if special = none ∧ pol = .strict then
    .error ⟨.malformed, "missing special bytes at the end of CTABv2"⟩
  else
    .ok ⟨com.source, com.name, com.dest, com.editable, com.note_mute,
         com.chord_mute, com.source_chord, com.source_chord_type,
         [low, mid, high], (r1V.1, r2V.1), special.map Prod.fst⟩

/-- The version-dependent suffix of `Ctab::read` for CTAB1
(src/ctab.rs lines 130-145): one 6-byte table, then a sentinel byte; a
non-zero sentinel asks for 4 special bytes (required under strict), a zero
sentinel means no special block.  The range defaults to the full 0-127. -/
def readSuffix1 (pol : Policy) (com : Common) (value : List Nat) :
    Except DecodeError Ctab := do
  let dataV ←
    okOrElse (splitChecked 6 value) ⟨.malformed, "cannot construct transposition table"⟩
  let t ← Table.tryFrom pol dataV.1 .ctab1
  let sentV ← u8read dataV.2
  if sentV.1 ≠ 0 then
    let special := splitChecked 4 sentV.2
    if special = none ∧ pol = .strict then
      .error ⟨.malformed, "missing special bytes at the end of CTABv1"⟩
    else
      .ok ⟨com.source, com.name, com.dest, com.editable, com.note_mute,
           com.chord_mute, com.source_chord, com.source_chord_type,
           [t], (0, 127), special.map Prod.fst⟩
  else
    .ok ⟨com.source, com.name, com.dest, com.editable, com.note_mute,
         com.chord_mute, com.source_chord, com.source_chord_type,
         [t], (0, 127), none⟩

/-- `Ctab::read` (src/ctab.rs lines 74-150): decode a CTAB1 or CTAB2 chunk. -/
def read (pol : Policy) (chunk : Chunk) : Except DecodeError Ctab :=
  match chunk with
  | .ctab1 v => do
    let comV ← readCommon pol v
    readSuffix1 pol comV.1 comV.2
  | .ctab2 v => do
    let comV ← readCommon pol v
    readSuffix2 pol comV.1 comV.2
  | _ => .error ⟨.invalid, "not a CTAB type chunk"⟩

end Ctab

/-- Modelled from the spec: 4-byte chunk tag constants (the concrete tag
values live in src/smf.rs, outside src/; the spec only fixes that each tag
is a 4-byte identifier, so representative ASCII tags are used). -/
def casmTag : List Nat := [0x43, 0x41, 0x53, 0x4D]

/-- Modelled from the spec: the CSEG chunk tag. -/
def csegTag : List Nat := [0x43, 0x53, 0x45, 0x47]

/-- Modelled from the spec: the style-part declaration chunk tag. -/
def sdecTag : List Nat := [0x53, 0x64, 0x65, 0x63]

/-- Modelled from the spec: the CTAB1 chunk tag. -/
def ctab1Tag : List Nat := [0x43, 0x74, 0x61, 0x62]

/-- Modelled from the spec: the CTAB2 chunk tag. -/
def ctab2Tag : List Nat := [0x43, 0x74, 0x62, 0x32]

/-- Modelled from the spec: the CNTT chunk tag. -/
def cnttTag : List Nat := [0x43, 0x6E, 0x74, 0x74]

/-- Modelled from the spec: the MH chunk tag. -/
def mhTag : List Nat := [0x4D, 0x48, 0x68, 0x64]

/-- Modelled from the spec: the MDB chunk tag. -/
def mdbTag : List Nat := [0x4D, 0x44, 0x42, 0x68]

/-- Modelled from the spec: the OTS chunk tag. -/
def otsTag : List Nat := [0x4F, 0x54, 0x53, 0x68]

/-- Modelled from the spec: the MDB record chunk tag. -/
def recordTag : List Nat := [0x52, 0x65, 0x63, 0x64]

/-- Modelled from the spec: the song-title data chunk tag. -/
def songTitleTag : List Nat := [0x53, 0x74, 0x69, 0x74]

/-- Modelled from the spec: the genre-title data chunk tag. -/
def genreTitleTag : List Nat := [0x47, 0x6E, 0x72, 0x65]

/-- Modelled from the spec: the first keyword chunk tag. -/
def keyword1Tag : List Nat := [0x4B, 0x77, 0x64, 0x31]

/-- Modelled from the spec: the second keyword chunk tag. -/
def keyword2Tag : List Nat := [0x4B, 0x77, 0x64, 0x32]

/-- Modelled from the spec: dispatch a 4-byte tag to the chunk variant. -/
def chunkOfTag (tag : List Nat) (payload : List Nat) : Chunk :=
  if tag = casmTag then .casm payload
  else if tag = csegTag then .cseg payload
  else if tag = sdecTag then .sdec payload
  else if tag = ctab1Tag then .ctab1 payload
  else if tag = ctab2Tag then .ctab2 payload
  else if tag = cnttTag then .cntt payload
  else if tag = mhTag then .mh payload
  else if tag = mdbTag then .mdb payload
  else if tag = otsTag then .ots payload
  else if tag = recordTag then .record payload
  else if tag = songTitleTag then .songTitleData payload
  else if tag = genreTitleTag then .genreTitleData payload
  else if tag = keyword1Tag then .keyword1 payload
  else if tag = keyword2Tag then .keyword2 payload
  else .other tag payload

/-- A 32-bit big-endian length field. -/
def be32 (a b c d : Nat) : Nat := ((a * 256 + b) * 256 + c) * 256 + d

/-- Modelled from the spec: one scanning pass of the chunk tokenizer
(`ChunkIter` in src/smf.rs, outside src/), following section 4.1 of the
specification: each step reads a 4-byte tag, a 4-byte big-endian length and
exactly that many payload bytes; a declared length exceeding the remaining
bytes is a malformed-length error, fewer than 8 remaining bytes (but more
than zero) is a truncated-header error, and exactly zero remaining bytes
ends the sequence.  `fuel` bounds the recursion; `tokenize` supplies enough
fuel for the whole buffer. -/
def tokenizeGo : Nat → List Nat → List (Except DecodeError Chunk)
  | _, [] => []
  | 0, _ :: _ => []
  | fuel + 1, b :: bs =>
    if 8 ≤ (b :: bs).length then
      let bytes := b :: bs
      let tag := bytes.take 4
      let len := be32 (bytes.getD 4 0) (bytes.getD 5 0) (bytes.getD 6 0) (bytes.getD 7 0)
      let rest := bytes.drop 8
      if len ≤ rest.length then
        .ok (chunkOfTag tag (rest.take len)) :: tokenizeGo fuel (rest.drop len)
      else
        [.error ⟨.malformed, "chunk length exceeds available data"⟩]
    else
      [.error ⟨.malformed, "truncated chunk header"⟩]

/-- Modelled from the spec: the full chunk tokenization of a byte buffer,
i.e. the sequence of results produced by `ChunkIter::new` over it. -/
def tokenize (bytes : List Nat) : List (Except DecodeError Chunk) :=
  tokenizeGo bytes.length bytes

/-- Split a byte list on the comma byte 0x2C, keeping empty segments, as
Rust's `slice::split` does in `Cseg::read` (src/casm.rs line 47). -/
def splitComma : List Nat → List (List Nat)
  | [] => [[]]
  | b :: rest =>
    if b = 0x2C then [] :: splitComma rest
    else
      match splitComma rest with
      | s :: ss => (b :: s) :: ss
      | [] => [[b]]

/-- The style-part loop inside `Cseg::read` (src/casm.rs lines 48-53):
convert each comma-separated segment, failing on the first unrecognized one. -/
def readStyleParts : List (List Nat) → Except DecodeError (List StylePart)
  | [] => .ok []
  | s :: rest =>
    match StylePart.tryFromBytes s with
    | .ok p =>
      match readStyleParts rest with
      | .ok ps => .ok (p :: ps)
      | .error e => .error e
    | .error _ => .error ⟨.malformed, "could not read style part value"⟩

/-- A decoded CSEG section, from src/casm.rs (`struct Cseg`). -/
structure Cseg where
  style_parts : List StylePart
  ctab : List Ctab

namespace Cseg

/-- The chunk loop of `Cseg::read` (src/casm.rs lines 43-61), over the
re-tokenized CSEG payload.  Note that the source's `Ctab1`/`Ctab2`/`Cntt`
arms do nothing with their data. -/
def loop : List (Except DecodeError Chunk) → List StylePart → List Ctab →
    Except DecodeError Cseg
  | [], styleParts, ctab => .ok ⟨styleParts, ctab⟩
  | c :: rest, styleParts, ctab =>
    match c with
    | .ok (.sdec data) =>
      match readStyleParts (splitComma data) with
      | .ok parts => loop rest (styleParts ++ parts) ctab
      | .error e => .error e
    | .ok (.ctab1 _) => loop rest styleParts ctab
    | .ok (.ctab2 _) => loop rest styleParts ctab
    | .ok (.cntt _) => loop rest styleParts ctab
    | .ok _ => .error ⟨.invalid, "found a chunk not belonging in a CASM section"⟩
    | .error _ => .error ⟨.invalid, "could not read chunk"⟩

/-- `Cseg::read` (src/casm.rs lines 33-63): re-tokenize a CSEG payload and
fold its chunks. -/
def read (chunk : Chunk) : Except DecodeError Cseg :=
  match chunk with
  | .cseg v => loop (tokenize v) [] []
  | _ => .error ⟨.invalid, "not a CSEG chunk"⟩

end Cseg

/-- The filter closure of `Casm::parse`: `matches!(c, Ok(Chunk::Casm(..)))`. -/
def isCasmChunk : Except DecodeError Chunk → Bool
  | .ok (.casm _) => true
  | _ => false

/-- The filter closure of `Mh::parse`: `matches!(c, Ok(Chunk::Mh(..)))`. -/
def isMhChunk : Except DecodeError Chunk → Bool
  | .ok (.mh _) => true
  | _ => false

/-- The filter closure of `Mdb::parse`: `matches!(c, Ok(Chunk::Mdb(..)))`. -/
def isMdbChunk : Except DecodeError Chunk → Bool
  | .ok (.mdb _) => true
  | _ => false

/-- The filter closure of `Ots::parse`: `matches!(c, Ok(Chunk::Ots(..)))`. -/
def isOtsChunk : Except DecodeError Chunk → Bool
  | .ok (.ots _) => true
  | _ => false

/-- `Casm::parse` (src/casm.rs lines 10-23): filter the top-level chunk
sequence to CASM chunks and take the first, returning its payload; an empty
filtrate means the section is absent. -/
def casmParse (chunks : List (Except DecodeError Chunk)) :
    Except DecodeError (Option (List Nat)) :=
  match (chunks.filter isCasmChunk).head? with
  | some (.ok (.casm data)) => .ok (some data)
  | some (.ok _) => .error ⟨.invalid, "expected CASM found another type of chunk"⟩
  | some (.error _) => .error ⟨.invalid, "invalid CASM header"⟩
  | none => .ok none

/-- `Mh::parse` (src/mh.rs lines 8-18): same first-match extraction for the
MH section. -/
def mhParse (chunks : List (Except DecodeError Chunk)) :
    Except DecodeError (Option (List Nat)) :=
  match (chunks.filter isMhChunk).head? with
  | some (.ok (.mh data)) => .ok (some data)
  | some (.ok _) => .error ⟨.invalid, "expected MH found another type of chunk"⟩
  | some (.error _) => .error ⟨.invalid, "invalid MH header"⟩
  | none => .ok none

/-- `Mdb::parse` (src/mdb.rs lines 9-21): same first-match extraction for the
MDB section. -/
def mdbParse (chunks : List (Except DecodeError Chunk)) :
    Except DecodeError (Option (List Nat)) :=
  match (chunks.filter isMdbChunk).head? with
  | some (.ok (.mdb data)) => .ok (some data)
  | some (.ok _) => .error ⟨.invalid, "expected MDB found another type of chunk"⟩
  | some (.error _) => .error ⟨.invalid, "invalid MDB header"⟩
  | none => .ok none

/-- `Ots::parse` (src/ots.rs lines 9-21): same first-match extraction for the
OTS section. -/
def otsParse (chunks : List (Except DecodeError Chunk)) :
    Except DecodeError (Option (List Nat)) :=
  match (chunks.filter isOtsChunk).head? with
  | some (.ok (.ots data)) => .ok (some data)
  | some (.ok _) => .error ⟨.invalid, "expected OTS found another type of chunk"⟩
  | some (.error _) => .error ⟨.invalid, "invalid OTS header"⟩
  | none => .ok none

/-- A decoded MDB record, from src/mdb.rs (`struct Record`); strings are
kept as byte lists. -/
structure Record where
  tempo : Nat
  signature : Nat × Nat
  title : List Nat
  genre : List Nat
  keyword1 : Option (List Nat)
  keyword2 : Option (List Nat)
deriving DecidableEq

namespace Record

/-- The sub-chunk loop of `Record::read` (src/mdb.rs lines 65-88): string
chunks overwrite the running fields; invalid UTF-8 yields an empty string
(title, genre) or an absent keyword; unknown chunk types are skipped;
tokenizer errors abort. -/
def loop : List (Except DecodeError Chunk) → Record → Except DecodeError Record
  | [], r => .ok r
  | c :: rest, r =>
    match c with
    | .ok (.songTitleData t) =>
      loop rest { r with title := if utf8Valid t then t else [] }
    | .ok (.genreTitleData t) =>
      loop rest { r with genre := if utf8Valid t then t else [] }
    | .ok (.keyword1 t) =>
      loop rest { r with keyword1 := if utf8Valid t ∧ t ≠ [] then some t else none }
    | .ok (.keyword2 t) =>
      loop rest { r with keyword2 := if utf8Valid t ∧ t ≠ [] then some t else none }
    | .error _ => .error ⟨.malformed, "failed to read chunk"⟩
    | .ok _ => loop rest r

/-- `Record::read` (src/mdb.rs lines 44-91): 24-bit tempo, two signature
bytes, then the re-tokenized string sub-chunks. -/
def read (chunk : Chunk) : Except DecodeError Record :=
  match chunk with
  | .record v =>
    match u24read v with
    | .error e => .error e
    | .ok (tempo, v) =>
      match u8read v with
      | .error e => .error e
      | .ok (upper, v) =>
        match u8read v with
        | .error e => .error e
        | .ok (lower, v) =>
          loop (tokenize v) ⟨tempo, (upper, lower), [], [], none, none⟩
  | _ => .error ⟨.invalid, "not a Record chunk"⟩

end Record

/-- A well-formed 20-byte CTAB common prefix used as concrete test input:
source channel 0, blank name, dest 0, editable, no mutes, key C, chord Maj. -/
def ctabPrefix20 : List Nat :=
  [0] ++ List.replicate 8 0x20 ++ [0] ++ [0] ++ [0, 0] ++
    List.replicate 5 0 ++ [0] ++ [0]

/-- A complete well-formed CTAB2 payload: prefix, range 0-127, three
all-zero tables, 7 special bytes. -/
def ctab2Input : List Nat :=
  ctabPrefix20 ++ [0, 127] ++ List.replicate 18 0 ++ List.replicate 7 0

/-- A complete well-formed CTAB1 payload with a non-zero sentinel and the
4 special bytes that follow it. -/
def ctab1Input : List Nat :=
  ctabPrefix20 ++ List.replicate 6 0 ++ [1, 0, 0, 0, 0]

/-- A well-formed minimal CTAB1 payload (zero sentinel, no special block). -/
def ctab1Body : List Nat := ctabPrefix20 ++ List.replicate 6 0 ++ [0]

/-- A CSEG payload holding exactly one CTAB1 sub-chunk whose body is
`ctab1Body` (chunk header: tag plus 4-byte big-endian length 27). -/
def csegOneCtab : List Nat := ctab1Tag ++ [0, 0, 0, 27] ++ ctab1Body

/-- A placeholder CTAB record (only used to give `ctabOk` a total type). -/
def ctabDummy : Ctab :=
  ⟨0, [], 0, true, fun _ => true, fun _ => none, .c, .maj, [], (0, 0), none⟩

/-- Extract the record from a successful CTAB decode. -/
def ctabOk (x : Except DecodeError Ctab) : Ctab :=
  match x with
  | .ok c => c
  | .error _ => ctabDummy

/-- Extract the map from a successful note-mute decode. -/
def noteMuteOk (x : Except DecodeError (Key → Bool)) : Key → Bool :=
  match x with
  | .ok m => m
  | .error _ => fun _ => true

/-- Extract the map from a successful chord-mute decode. -/
def chordMuteOk (x : Except DecodeError (Chord → Option Bool)) : Chord → Option Bool :=
  match x with
  | .ok m => m
  | .error _ => fun _ => none

/- ------------------------------------------------------------------ -/
/- Helper lemmas -/
/- ------------------------------------------------------------------ -/

theorem and_mod16 (b0 mask : Nat) (hm : 15 &&& mask = mask) :
    b0 % 16 &&& mask = b0 &&& mask := by
  have h16 : b0 % 16 = b0 &&& 15 := by
    have h := Nat.and_pow_two_sub_one_eq_mod b0 4
    norm_num at h
    exact h.symm
  rw [h16, Nat.and_assoc, hm]

theorem exceptOkBind {α β : Type} (a : α) (f : α → Except DecodeError β) :
    (Except.ok a >>= f) = f a := rfl

theorem drop_cons_succ {l w : List Nat} {b n : Nat} (hv : l.drop n = b :: w) :
    l.drop (n + 1) = w := by
  have h' := congrArg (List.drop 1) hv
  simpa [List.drop_drop] using h'

theorem exceptBindOk {α β : Type} {x : Except DecodeError α}
    {f : α → Except DecodeError β} {b : β} (h : x.bind f = .ok b) :
    ∃ a, x = .ok a ∧ f a = .ok b := by
  cases x with
  | error e => exact absurd h (by simp [Except.bind])
  | ok a => exact ⟨a, rfl, h⟩

theorem u8read_ok {v : List Nat} {a : Nat} {r : List Nat}
    (h : u8read v = .ok (a, r)) : v = a :: r ∧ r = v.drop 1 := by
  cases v with
  | nil => exact absurd h (by simp [u8read])
  | cons b bs =>
    simp only [u8read, Except.ok.injEq, Prod.mk.injEq] at h
    obtain ⟨rfl, rfl⟩ := h
    exact ⟨rfl, rfl⟩

theorem u4read_ok {v : List Nat} {a : Nat} {r : List Nat}
    (h : u4read v = .ok (a, r)) : r = v.drop 1 := by
  cases v with
  | nil => exact absurd h (by simp [u4read])
  | cons b bs =>
    simp only [u4read, Except.ok.injEq, Prod.mk.injEq] at h
    obtain ⟨-, rfl⟩ := h
    rfl

theorem u7read_ok {v : List Nat} {a : Nat} {r : List Nat}
    (h : u7read v = .ok (a, r)) : ∃ b, v = b :: r ∧ a = b &&& 0x7F := by
  cases v with
  | nil => exact absurd h (by simp [u7read])
  | cons b bs =>
    simp only [u7read, Except.ok.injEq, Prod.mk.injEq] at h
    obtain ⟨rfl, rfl⟩ := h
    exact ⟨b, rfl, rfl⟩

theorem splitChecked_some {n : Nat} {v a r : List Nat}
    (h : splitChecked n v = some (a, r)) :
    a = v.take n ∧ r = v.drop n ∧ n ≤ v.length := by
  unfold splitChecked at h
  split at h
  · simp only [Option.some.injEq, Prod.mk.injEq] at h
    obtain ⟨rfl, rfl⟩ := h
    exact ⟨rfl, rfl, by assumption⟩
  · exact absurd h (by simp)

theorem okOrElse_ok {α : Type} {x : Option α} {e : DecodeError} {a : α}
    (h : okOrElse x e = .ok a) : x = some a := by
  cases x with
  | none => exact absurd h (by simp [okOrElse])
  | some b => simpa [okOrElse] using h

theorem readName_ok {pol : Policy} {v nm r : List Nat}
    (h : Ctab.readName pol v = .ok (nm, r)) : r = v.drop 8 ∧ 8 ≤ v.length := by
  unfold Ctab.readName at h
  obtain ⟨⟨p1, p2⟩, h1, h⟩ := exceptBindOk h
  obtain ⟨-, hdrop, hlen⟩ := splitChecked_some (okOrElse_ok h1)
  refine ⟨?_, hlen⟩
  split at h
  · simp only [Except.ok.injEq, Prod.mk.injEq] at h
    exact h.2 ▸ hdrop
  · split at h
    · exact absurd h (by simp)
    · simp only [Except.ok.injEq, Prod.mk.injEq] at h
      exact h.2 ▸ hdrop

theorem readCommon_ok {pol : Policy} {v : List Nat} {com : Ctab.Common}
    {rest : List Nat} (h : Ctab.readCommon pol v = .ok (com, rest)) :
    rest = v.drop 20 := by
  unfold Ctab.readCommon at h
  obtain ⟨⟨a1, v1⟩, h1, h⟩ := exceptBindOk h
  obtain ⟨⟨a2, v2⟩, h2, h⟩ := exceptBindOk h
  obtain ⟨⟨a3, v3⟩, h3, h⟩ := exceptBindOk h
  obtain ⟨⟨a4, v4⟩, h4, h⟩ := exceptBindOk h
  obtain ⟨⟨a5, v5⟩, h5, h⟩ := exceptBindOk h
  obtain ⟨⟨a6, v6⟩, h6, h⟩ := exceptBindOk h
  obtain ⟨nm, h7, h⟩ := exceptBindOk h
  obtain ⟨⟨a8, v8⟩, h8, h⟩ := exceptBindOk h
  obtain ⟨cmv, h9, h⟩ := exceptBindOk h
  obtain ⟨⟨a10, v10⟩, h10, h⟩ := exceptBindOk h
  obtain ⟨k1, h11, h⟩ := exceptBindOk h
  obtain ⟨⟨a12, v12⟩, h12, h⟩ := exceptBindOk h
  obtain ⟨k2, h13, h⟩ := exceptBindOk h
  simp only [Except.ok.injEq, Prod.mk.injEq] at h
  obtain ⟨-, hrest⟩ := h
  have e1 := u4read_ok h1
  have e2 := (readName_ok h2).1
  have e3 := u4read_ok h3
  have e4 := (u8read_ok h4).2
  have e5 := (u8read_ok h5).2
  have e6 := (u8read_ok h6).2
  have e8 := (splitChecked_some (okOrElse_ok h8)).2.1
  have e10 := (u8read_ok h10).2
  have e12 := (u8read_ok h12).2
  subst e1 e2 e3 e4 e5 e6 e8 e10 e12
  rw [← hrest]
  simp [List.drop_drop]

/- ------------------------------------------------------------------ -/
/- Claim theorems -/
/- ------------------------------------------------------------------ -/

/-- Claim C9: every style-part variant round-trips through its canonical
string and byte-string representations; the `TryFrom` conversions are left
inverses of the `From` conversions on the whole 17-element enumeration. -/
theorem c9_style_part_roundtrip : ∀ p : StylePart,
    StylePart.tryFromStr (StylePart.strFrom p) = .ok p ∧
    StylePart.tryFromBytes (StylePart.bytesFrom p) = .ok p := by
  intro p
  cases p <;> exact ⟨rfl, rfl⟩

/-- Claim C2 counterexample: the claim says an unrecognized code in the
retrigger-rule (and key) decoder falls back to a default variant under the
lenient policy; but these decoders take no policy at all and signal a
decode error on unrecognized codes under both policies, as evaluated here
at the concrete unrecognized codes 6 and 12. -/
theorem c2_no_lenient_default_cx :
    RetriggerRule.tryFrom 6 = .error ⟨.invalid, "unknown retrigger rule"⟩ ∧
    Key.tryFrom 12 = .error ⟨.invalid, "invalid key value"⟩ :=
  ⟨rfl, rfl⟩

/-- Claim C2 (amended): an unrecognized enumeration code is a decode error
under the strict policy in all five CTAB enumeration decoders; under the
lenient policy only the transposition-type and transposition-rule decoders
fall back to their default variants (root transposition and bypass), while
the key, chord-type and retrigger-rule decoders signal a decode error under
both policies. -/
theorem c2_amended_unknown_enum_codes (v : Nat) :
    (12 ≤ v → Key.tryFrom v = .error ⟨.invalid, "invalid key value"⟩) ∧
    (0x23 ≤ v → Chord.tryFrom v = .error ⟨.invalid, "unknown chord"⟩) ∧
    (6 ≤ v → RetriggerRule.tryFrom v = .error ⟨.invalid, "unknown retrigger rule"⟩) ∧
    (3 ≤ v → ∀ ver : Version,
      TranspositionType.tryFrom .strict v ver =
        .error ⟨.invalid, "unknown transposition mode"⟩ ∧
      TranspositionType.tryFrom .lenient v ver = .ok .rootTransposition) ∧
    (11 ≤ v &&& 0x7F → ∀ ver : Version,
      (∃ e, TranspositionTable.tryFrom .strict v ver = .error e) ∧
      TranspositionTable.tryFrom .lenient v ver = .ok .bypass) := by
  refine ⟨?_, ?_, ?_, ?_, ?_⟩
  · intro h
    obtain ⟨k, rfl⟩ : ∃ k, v = k + 12 := ⟨v - 12, by omega⟩
    rfl
  · intro h
    obtain ⟨k, rfl⟩ : ∃ k, v = k + 35 := ⟨v - 35, by omega⟩
    rfl
  · intro h
    obtain ⟨k, rfl⟩ : ∃ k, v = k + 6 := ⟨v - 6, by omega⟩
    rfl
  · intro h ver
    obtain ⟨k, rfl⟩ : ∃ k, v = k + 3 := ⟨v - 3, by omega⟩
    exact ⟨rfl, rfl⟩
  · intro h ver
    obtain ⟨k, hk⟩ : ∃ k, v &&& 0x7F = k + 11 := ⟨(v &&& 0x7F) - 11, by omega⟩
    constructor
    · unfold TranspositionTable.tryFrom
      rw [hk]
      cases ver <;> exact ⟨_, rfl⟩
    · unfold TranspositionTable.tryFrom
      rw [hk]
      cases ver <;> rfl

/-- Claim C2 witness: the amended theorem applied at the concrete
unrecognized code 255 (masked rule code 127). -/
theorem c2_amended_unknown_enum_codes_witness :
    Key.tryFrom 255 = .error ⟨.invalid, "invalid key value"⟩ ∧
    TranspositionType.tryFrom .lenient 255 .ctab2 = .ok .rootTransposition ∧
    TranspositionTable.tryFrom .lenient 255 .ctab1 = .ok .bypass :=
  ⟨(c2_amended_unknown_enum_codes 255).1 (by omega),
   ((c2_amended_unknown_enum_codes 255).2.2.2.1 (by omega) .ctab2).2,
   ((c2_amended_unknown_enum_codes 255).2.2.2.2 (by decide) .ctab1).2⟩

/-- Claim C3: a declared length exceeding the bytes actually available is a
fatal decode error under both policies: the chunk tokenizer rejects a chunk
whose declared length exceeds the remaining buffer, and the table decoder
rejects a byte span shorter than the fixed 6-byte table size, with no
policy-dependent branch in either check. -/
theorem c3_truncation_fatal :
    (∀ bytes : List Nat, 8 ≤ bytes.length →
      bytes.length - 8 <
        be32 (bytes.getD 4 0) (bytes.getD 5 0) (bytes.getD 6 0) (bytes.getD 7 0) →
      tokenize bytes = [.error ⟨.malformed, "chunk length exceeds available data"⟩]) ∧
    (∀ (pol : Policy) (value : List Nat) (ver : Version), value.length < 6 →
      Table.tryFrom pol value ver = .error ⟨.malformed, "data field too small"⟩) := by
  constructor
  · intro bytes h8 hlen
    cases bytes with
    | nil => simp at h8
    | cons b bs =>
      simp only [tokenize, List.length_cons, tokenizeGo]
      rw [if_pos (by simpa using h8)]
      rw [if_neg]
      intro hle
      rw [List.length_drop] at hle
      simp only [List.length_cons] at hle hlen
      omega
  · intro pol value ver h
    unfold Table.tryFrom
    rw [if_pos h]

/-- Claim C3 witness: the theorem applied to a concrete 8-byte buffer whose
header declares 5 payload bytes with none remaining, and to an empty table
span. -/
theorem c3_truncation_fatal_witness :
    tokenize [0, 0, 0, 0, 0, 0, 0, 5] =
      [.error ⟨.malformed, "chunk length exceeds available data"⟩] ∧
    Table.tryFrom .lenient [] .ctab1 = .error ⟨.malformed, "data field too small"⟩ :=
  ⟨c3_truncation_fatal.1 [0, 0, 0, 0, 0, 0, 0, 5] (by decide) (by decide),
   c3_truncation_fatal.2 .lenient [] .ctab1 (by decide)⟩

/-- Claim C5: every section extractor (CASM, MH, MDB, OTS) returns the
payload of the first chunk carrying its tag — whatever follows that chunk,
including further chunks with the same tag, cannot influence the result —
and returns absence (`none`), not an error, when no chunk matches. -/
theorem c5_section_extractor_first_match :
    (∀ (pre post : List (Except DecodeError Chunk)) (data : List Nat),
      (∀ c ∈ pre, ∀ d, c ≠ .ok (.casm d)) →
      casmParse (pre ++ .ok (.casm data) :: post) = .ok (some data)) ∧
    (∀ chunks : List (Except DecodeError Chunk),
      (∀ c ∈ chunks, ∀ d, c ≠ .ok (.casm d)) → casmParse chunks = .ok none) ∧
    (∀ (pre post : List (Except DecodeError Chunk)) (data : List Nat),
      (∀ c ∈ pre, ∀ d, c ≠ .ok (.mh d)) →
      mhParse (pre ++ .ok (.mh data) :: post) = .ok (some data)) ∧
    (∀ chunks : List (Except DecodeError Chunk),
      (∀ c ∈ chunks, ∀ d, c ≠ .ok (.mh d)) → mhParse chunks = .ok none) ∧
    (∀ (pre post : List (Except DecodeError Chunk)) (data : List Nat),
      (∀ c ∈ pre, ∀ d, c ≠ .ok (.mdb d)) →
      mdbParse (pre ++ .ok (.mdb data) :: post) = .ok (some data)) ∧
    (∀ chunks : List (Except DecodeError Chunk),
      (∀ c ∈ chunks, ∀ d, c ≠ .ok (.mdb d)) → mdbParse chunks = .ok none) ∧
    (∀ (pre post : List (Except DecodeError Chunk)) (data : List Nat),
      (∀ c ∈ pre, ∀ d, c ≠ .ok (.ots d)) →
      otsParse (pre ++ .ok (.ots data) :: post) = .ok (some data)) ∧
    (∀ chunks : List (Except DecodeError Chunk),
      (∀ c ∈ chunks, ∀ d, c ≠ .ok (.ots d)) → otsParse chunks = .ok none) := by
  refine ⟨?_, ?_, ?_, ?_, ?_, ?_, ?_, ?_⟩
  · intro pre post data hpre
    have hp : pre.filter isCasmChunk = [] := List.filter_eq_nil_iff.mpr (by
      intro c hc
      rcases c with e | ch
      · simp [isCasmChunk]
      · cases ch
        case casm d => exact fun _ => hpre _ hc d rfl
        all_goals simp [isCasmChunk])
    unfold casmParse
    rw [List.filter_append, hp, List.nil_append, List.filter_cons_of_pos rfl]
    rfl
  · intro chunks h
    have hp : chunks.filter isCasmChunk = [] := List.filter_eq_nil_iff.mpr (by
      intro c hc
      rcases c with e | ch
      · simp [isCasmChunk]
      · cases ch
        case casm d => exact fun _ => h _ hc d rfl
        all_goals simp [isCasmChunk])
    unfold casmParse
    rw [hp]
    rfl
  · intro pre post data hpre
    have hp : pre.filter isMhChunk = [] := List.filter_eq_nil_iff.mpr (by
      intro c hc
      rcases c with e | ch
      · simp [isMhChunk]
      · cases ch
        case mh d => exact fun _ => hpre _ hc d rfl
        all_goals simp [isMhChunk])
    unfold mhParse
    rw [List.filter_append, hp, List.nil_append, List.filter_cons_of_pos rfl]
    rfl
  · intro chunks h
    have hp : chunks.filter isMhChunk = [] := List.filter_eq_nil_iff.mpr (by
      intro c hc
      rcases c with e | ch
      · simp [isMhChunk]
      · cases ch
        case mh d => exact fun _ => h _ hc d rfl
        all_goals simp [isMhChunk])
    unfold mhParse
    rw [hp]
    rfl
  · intro pre post data hpre
    have hp : pre.filter isMdbChunk = [] := List.filter_eq_nil_iff.mpr (by
      intro c hc
      rcases c with e | ch
      · simp [isMdbChunk]
      · cases ch
        case mdb d => exact fun _ => hpre _ hc d rfl
        all_goals simp [isMdbChunk])
    unfold mdbParse
    rw [List.filter_append, hp, List.nil_append, List.filter_cons_of_pos rfl]
    rfl
  · intro chunks h
    have hp : chunks.filter isMdbChunk = [] := List.filter_eq_nil_iff.mpr (by
      intro c hc
      rcases c with e | ch
      · simp [isMdbChunk]
      · cases ch
        case mdb d => exact fun _ => h _ hc d rfl
        all_goals simp [isMdbChunk])
    unfold mdbParse
    rw [hp]
    rfl
  · intro pre post data hpre
    have hp : pre.filter isOtsChunk = [] := List.filter_eq_nil_iff.mpr (by
      intro c hc
      rcases c with e | ch
      · simp [isOtsChunk]
      · cases ch
        case ots d => exact fun _ => hpre _ hc d rfl
        all_goals simp [isOtsChunk])
    unfold otsParse
    rw [List.filter_append, hp, List.nil_append, List.filter_cons_of_pos rfl]
    rfl
  · intro chunks h
    have hp : chunks.filter isOtsChunk = [] := List.filter_eq_nil_iff.mpr (by
      intro c hc
      rcases c with e | ch
      · simp [isOtsChunk]
      · cases ch
        case ots d => exact fun _ => h _ hc d rfl
        all_goals simp [isOtsChunk])
    unfold otsParse
    rw [hp]
    rfl

/-- Claim C5 witness: the theorem applied to concrete sequences — a buffer
whose CASM chunk is followed by a second CASM chunk yields only the first
payload, and a buffer with no CASM chunk yields absence (similarly for MH,
MDB, OTS). -/
theorem c5_section_extractor_first_match_witness :
    casmParse [.ok (.casm [1, 2]), .ok (.casm [9])] = .ok (some [1, 2]) ∧
    casmParse [.ok (.mh [5])] = .ok none ∧
    mhParse [.ok (.mh [3])] = .ok (some [3]) ∧
    mhParse [] = .ok none ∧
    mdbParse [.ok (.mdb [4])] = .ok (some [4]) ∧
    mdbParse [] = .ok none ∧
    otsParse [.ok (.ots [6])] = .ok (some [6]) ∧
    otsParse [] = .ok none :=
  ⟨c5_section_extractor_first_match.1 [] [.ok (.casm [9])] [1, 2] (by simp),
   c5_section_extractor_first_match.2.1 [.ok (.mh [5])] (by simp),
   c5_section_extractor_first_match.2.2.1 [] [] [3] (by simp),
   c5_section_extractor_first_match.2.2.2.1 [] (by simp),
   c5_section_extractor_first_match.2.2.2.2.1 [] [] [4] (by simp),
   c5_section_extractor_first_match.2.2.2.2.2.1 [] (by simp),
   c5_section_extractor_first_match.2.2.2.2.2.2.1 [] [] [6] (by simp),
   c5_section_extractor_first_match.2.2.2.2.2.2.2 [] (by simp)⟩

/-- Claim C8: on a successful decode, the note-mute boolean of each of the
12 pitch classes (B, Bb, A, G#, G, F#, F, E, Eb, D, C#, C in MSB-first bit
order over the two bytes) is true exactly when its bit is cleared; a first
byte with any of the reserved top 4 bits set is rejected under the strict
policy, and those bits are ignored under the lenient policy (the result
depends only on the low nibble of the first byte). -/
theorem c8_note_mute_bits :
    (∀ (pol : Policy) (b0 b1 : Nat) (m : Key → Bool),
      Ctab.readNoteMute pol b0 b1 = .ok m →
        m .b = (b0 &&& 8 == 0) ∧ m .bb = (b0 &&& 4 == 0) ∧
        m .a = (b0 &&& 2 == 0) ∧ m .gs = (b0 &&& 1 == 0) ∧
        m .g = (b1 &&& 128 == 0) ∧ m .fs = (b1 &&& 64 == 0) ∧
        m .f = (b1 &&& 32 == 0) ∧ m .e = (b1 &&& 16 == 0) ∧
        m .eb = (b1 &&& 8 == 0) ∧ m .d = (b1 &&& 4 == 0) ∧
        m .cs = (b1 &&& 2 == 0) ∧ m .c = (b1 &&& 1 == 0)) ∧
    (∀ b0 b1 : Nat, b0 < 256 → 15 < b0 →
      Ctab.readNoteMute .strict b0 b1 =
        .error ⟨.malformed, "note mute first nibble is not 0"⟩) ∧
    (∀ b0 b1 : Nat,
      Ctab.readNoteMute .lenient b0 b1 = Ctab.readNoteMute .lenient (b0 % 16) b1) := by
  refine ⟨?_, ?_, ?_⟩
  · intro pol b0 b1 m h
    unfold Ctab.readNoteMute at h
    split at h
    · exact absurd h (by simp)
    · simp only [Except.ok.injEq] at h
      subst h
      exact ⟨rfl, rfl, rfl, rfl, rfl, rfl, rfl, rfl, rfl, rfl, rfl, rfl⟩
  · intro b0 b1 h256 h15
    unfold Ctab.readNoteMute
    rw [if_pos ⟨h15, rfl⟩]
  · intro b0 b1
    unfold Ctab.readNoteMute
    rw [if_neg (by rintro ⟨-, hh⟩; exact Policy.noConfusion hh),
        if_neg (by rintro ⟨-, hh⟩; exact Policy.noConfusion hh)]
    congr 1
    funext k
    cases k
    case b => rw [and_mod16 b0 8 rfl]
    case bb => rw [and_mod16 b0 4 rfl]
    case a => rw [and_mod16 b0 2 rfl]
    case gs => rw [and_mod16 b0 1 rfl]
    all_goals rfl

/-- Claim C8 witness: the theorem applied at the concrete bytes 5 and 0
(lenient decode of a cleared-bit pattern) and 255 (strict rejection of a
set reserved bit). -/
theorem c8_note_mute_bits_witness :
    noteMuteOk (Ctab.readNoteMute .lenient 5 0) .b = (5 &&& 8 == 0) ∧
    Ctab.readNoteMute .strict 255 0 =
      .error ⟨.malformed, "note mute first nibble is not 0"⟩ :=
  ⟨(c8_note_mute_bits.1 .lenient 5 0 _ rfl).1,
   c8_note_mute_bits.2.1 255 0 (by decide) (by decide)⟩

/-- Claim C10: a successful 5-byte chord-mute decode yields a map holding
exactly the 36 chords addressed by the usable bits — every chord except
`cancel` is present, `cancel` never is — and the chord at bit index `i`
maps to true exactly when bit `7 - ((i+4) % 8)` of byte `(i+4) / 8` is
set. -/
theorem c10_chord_mute_map :
    ∀ (pol : Policy) (v0 v1 v2 v3 v4 : Nat) (m : Chord → Option Bool),
      Ctab.readChordMute pol [v0, v1, v2, v3, v4] = .ok m →
        m .cancel = none ∧
        (∀ ch : Chord, ch ≠ .cancel → ∃ b, m ch = some b) ∧
        chordsOrder.length = 36 ∧
        (∀ (i : Nat) (ch : Chord), chordsOrder[i]? = some ch →
          m ch = some ([v0, v1, v2, v3, v4].getD ((i + 4) / 8) 0 &&&
            (1 <<< (7 - (i + 4) % 8)) != 0)) := by
  intro pol v0 v1 v2 v3 v4 m h
  unfold Ctab.readChordMute at h
  split at h
  · exact absurd h (by simp)
  · simp only [Except.ok.injEq] at h
    subst h
    refine ⟨rfl, ?_, rfl, ?_⟩
    · intro ch hch
      cases ch
      case cancel => exact absurd rfl hch
      all_goals exact ⟨_, rfl⟩
    · intro i ch hch
      have hi : i < 36 := by
        rcases Nat.lt_or_ge i 36 with hlt | hge
        · exact hlt
        · rw [List.getElem?_eq_none (by simpa [chordsOrder] using hge)] at hch
          exact Option.noConfusion hch
      interval_cases i <;> (have h2 := Option.some.inj hch; subst h2; rfl)

/-- Claim C10 witness: the theorem applied at the concrete all-ones bit
pattern under the lenient policy. -/
theorem c10_chord_mute_map_witness :
    chordMuteOk (Ctab.readChordMute .lenient [255, 255, 255, 255, 255]) .cancel = none ∧
    (∃ b, chordMuteOk (Ctab.readChordMute .lenient [255, 255, 255, 255, 255]) .maj = some b) :=
  ⟨(c10_chord_mute_map .lenient 255 255 255 255 255 _ rfl).1,
   (c10_chord_mute_map .lenient 255 255 255 255 255 _ rfl).2.1 .maj (by decide)⟩

/-- Claim C4 counterexample: the claim says invalid UTF-8 is never fatal
for any string field under either policy; but under the strict policy an
invalid UTF-8 CTAB name aborts the record with a malformed-data error, as
evaluated here on a concrete CTAB1 payload whose 8 name bytes are 0xFF. -/
theorem c4_strict_name_utf8_cx :
    Ctab.read .strict (.ctab1 ([0] ++ List.replicate 8 0xFF)) =
      .error ⟨.malformed, "not a valid string for name"⟩ := rfl

/-- Claim C4 (amended): invalid UTF-8 in the MDB string fields (title,
genre, keywords) is never fatal and degrades to an empty or absent value
under both policies; the CTAB name likewise degrades to an empty string
under the lenient policy, but under the strict policy an invalid UTF-8
CTAB name is a malformed-record error. -/
theorem c4_amended_utf8_degrades :
    (∀ v : List Nat, 8 ≤ v.length → utf8Valid (v.take 8) = false →
      Ctab.readName .lenient v = .ok ([], v.drop 8)) ∧
    (∀ (t g k1 k2 : List Nat) (r0 : Record),
      utf8Valid t = false → utf8Valid g = false →
      utf8Valid k1 = false → utf8Valid k2 = false →
      Record.loop [.ok (.songTitleData t), .ok (.genreTitleData g),
          .ok (.keyword1 k1), .ok (.keyword2 k2)] r0 =
        .ok { r0 with title := [], genre := [], keyword1 := none, keyword2 := none }) := by
  constructor
  · intro v h8 hbad
    unfold Ctab.readName
    rw [show splitChecked 8 v = some (v.take 8, v.drop 8) from by
      unfold splitChecked; rw [if_pos h8]]
    simp [okOrElse, exceptOkBind, hbad]
  · intro t g k1 k2 r0 ht hg hk1 hk2
    simp [Record.loop, ht, hg, hk1, hk2]

/-- Claim C4 witness: the amended theorem applied at concrete invalid
UTF-8 byte strings (0xFF bytes). -/
theorem c4_amended_utf8_degrades_witness :
    Ctab.readName .lenient (List.replicate 8 0xFF) = .ok ([], []) ∧
    Record.loop [.ok (.songTitleData [255]), .ok (.genreTitleData [255]),
        .ok (.keyword1 [255]), .ok (.keyword2 [255])]
        ⟨0, (4, 4), [], [], none, none⟩ =
      .ok ⟨0, (4, 4), [], [], none, none⟩ :=
  ⟨c4_amended_utf8_degrades.1 (List.replicate 8 0xFF) (by decide) (by decide),
   c4_amended_utf8_degrades.2 [255] [255] [255] [255]
     ⟨0, (4, 4), [], [], none, none⟩ (by decide) (by decide) (by decide) (by decide)⟩

/-- Claim C1 (code-bug evaluation): `csegOneCtab` is a CSEG payload that
tokenizes into exactly one CTAB1 sub-chunk whose body decodes successfully
under both policies, yet `Cseg::read` returns a Cseg whose `ctab` field is
empty — the CTAB1/CTAB2 arms of its chunk loop discard their data — where
the claim (and the specification) require one decoded record per CTAB
sub-chunk. -/
theorem c1_cseg_ignores_ctab :
    tokenize csegOneCtab = [.ok (.ctab1 ctab1Body)] ∧
    (∃ c, Ctab.read .strict (.ctab1 ctab1Body) = .ok c) ∧
    (∃ c, Ctab.read .lenient (.ctab1 ctab1Body) = .ok c) ∧
    Cseg.read (.cseg csegOneCtab) = .ok ⟨[], []⟩ :=
  ⟨rfl, ⟨_, rfl⟩, ⟨_, rfl⟩, rfl⟩

/-- Claim C6: a CTAB2 payload that decodes successfully consumed the 20-byte
common prefix, then exactly two middle-range boundary bytes (stored masked
to 7 bits), then exactly three consecutive 6-byte Table blocks decoded in
low/mid/high order from offsets 22, 28 and 34; under the strict policy the
decode additionally required exactly 7 trailing special bytes (so the
payload is at least 47 bytes long), failing when they are missing. -/
theorem c6_ctab2_layout :
    ∀ (pol : Policy) (v : List Nat) (c : Ctab),
      Ctab.read pol (.ctab2 v) = .ok c →
        (∃ b20 b21 rest, v.drop 20 = b20 :: b21 :: rest ∧
          c.range = (b20 &&& 0x7F, b21 &&& 0x7F)) ∧
        40 ≤ v.length ∧
        (∃ t1 t2 t3,
          Table.tryFrom pol ((v.drop 22).take 6) .ctab2 = .ok t1 ∧
          Table.tryFrom pol ((v.drop 28).take 6) .ctab2 = .ok t2 ∧
          Table.tryFrom pol ((v.drop 34).take 6) .ctab2 = .ok t3 ∧
          c.table = [t1, t2, t3]) ∧
        (pol = .strict → c.special = some ((v.drop 40).take 7) ∧ 47 ≤ v.length) := by
  intro pol v c h
  simp only [Ctab.read] at h
  obtain ⟨⟨com, value⟩, hrc, h⟩ := exceptBindOk h
  have hval : value = v.drop 20 := readCommon_ok hrc
  subst hval
  have h2 : Ctab.readSuffix2 pol com (v.drop 20) = .ok c := h
  unfold Ctab.readSuffix2 at h2
  obtain ⟨⟨r1, w1⟩, hu1, h2⟩ := exceptBindOk h2
  obtain ⟨⟨r2, w2⟩, hu2, h2⟩ := exceptBindOk h2
  obtain ⟨⟨data, w3⟩, hsp, h2⟩ := exceptBindOk h2
  obtain ⟨t1, ht1, h2⟩ := exceptBindOk h2
  obtain ⟨t2, ht2, h2⟩ := exceptBindOk h2
  obtain ⟨t3, ht3, h2⟩ := exceptBindOk h2
  obtain ⟨b20, hv1, hr1⟩ := u7read_ok hu1
  obtain ⟨b21, hv2, hr2⟩ := u7read_ok hu2
  dsimp only at hv2 hsp h2
  have hw1 : v.drop 21 = w1 := drop_cons_succ hv1
  have hw2 : v.drop 22 = w2 := by
    rw [← hw1] at hv2
    exact drop_cons_succ hv2
  obtain ⟨hdata, hw3, hlen18⟩ := splitChecked_some (okOrElse_ok hsp)
  rw [← hw2] at hdata hw3 hlen18
  have hlen40 : 40 ≤ v.length := by
    rw [List.length_drop] at hlen18
    omega
  have hw3' : w3 = v.drop 40 := by
    rw [hw3, List.drop_drop]
  have hd1 : data.take 6 = (v.drop 22).take 6 := by
    rw [hdata, List.take_take]
    norm_num
  have hd2 : (data.drop 6).take 6 = (v.drop 28).take 6 := by
    rw [hdata, List.drop_take, List.take_take, List.drop_drop]
    norm_num
  have hd3 : data.drop 12 = (v.drop 34).take 6 := by
    rw [hdata, List.drop_take, List.drop_drop]
  rw [hd1] at ht1
  rw [hd2] at ht2
  rw [hd3] at ht3
  split at h2
  · exact absurd h2 (by simp)
  · rename_i hcond
    simp only [Except.ok.injEq] at h2
    subst h2
    refine ⟨⟨b20, b21, w2, by rw [hv1, hv2], ?_⟩,
      hlen40, ⟨t1, t2, t3, ht1, ht2, ht3, rfl⟩, ?_⟩
    · show (r1, r2) = (b20 &&& 0x7F, b21 &&& 0x7F)
      rw [hr1, hr2]
    · intro hpol
      subst hpol
      cases hsc : splitChecked 7 w3 with
      | none => exact absurd ⟨hsc, rfl⟩ hcond
      | some p =>
        obtain ⟨p1, p2⟩ := p
        obtain ⟨hp1, -, hlen7⟩ := splitChecked_some hsc
        constructor
        · simp [hp1, hw3']
        · rw [hw3', List.length_drop] at hlen7
          omega

/-- Claim C6 witness: the theorem applied to a concrete well-formed 47-byte
CTAB2 payload under the strict policy. -/
theorem c6_ctab2_layout_witness :
    40 ≤ ctab2Input.length ∧
    (ctabOk (Ctab.read .strict (.ctab2 ctab2Input))).special =
      some ((ctab2Input.drop 40).take 7) ∧
    47 ≤ ctab2Input.length :=
  ⟨(c6_ctab2_layout .strict ctab2Input _ rfl).2.1,
   ((c6_ctab2_layout .strict ctab2Input _ rfl).2.2.2 rfl).1,
   ((c6_ctab2_layout .strict ctab2Input _ rfl).2.2.2 rfl).2⟩

/-- Claim C7: a CTAB1 payload that decodes successfully carries a single
6-byte Table right after the 20-byte common prefix, followed by one
sentinel byte at offset 26: when the sentinel is zero no special trailing
block is consumed, and when it is non-zero the decoder attempts to consume
exactly 4 trailing special bytes — taking them when at least 4 bytes
remain, and otherwise succeeding only under the lenient policy with no
special block. -/
theorem c7_ctab1_sentinel :
    ∀ (pol : Policy) (v : List Nat) (c : Ctab),
      Ctab.read pol (.ctab1 v) = .ok c →
        (∃ t, Table.tryFrom pol ((v.drop 20).take 6) .ctab1 = .ok t ∧
          c.table = [t]) ∧
        (∃ sent rest, v.drop 26 = sent :: rest ∧
          (sent = 0 → c.special = none) ∧
          (sent ≠ 0 →
            (4 ≤ rest.length → c.special = some (rest.take 4)) ∧
            (rest.length < 4 → pol = .lenient ∧ c.special = none))) := by
  intro pol v c h
  simp only [Ctab.read] at h
  obtain ⟨⟨com, value⟩, hrc, h⟩ := exceptBindOk h
  have hval : value = v.drop 20 := readCommon_ok hrc
  subst hval
  have h2 : Ctab.readSuffix1 pol com (v.drop 20) = .ok c := h
  unfold Ctab.readSuffix1 at h2
  obtain ⟨⟨data, w1⟩, hsp, h2⟩ := exceptBindOk h2
  obtain ⟨t, ht, h2⟩ := exceptBindOk h2
  obtain ⟨⟨sent, w2⟩, hu, h2⟩ := exceptBindOk h2
  dsimp only at hsp ht hu h2
  obtain ⟨hdata, hw1, hlen6⟩ := splitChecked_some (okOrElse_ok hsp)
  have hw1' : w1 = v.drop 26 := by rw [hw1, List.drop_drop]
  obtain ⟨hv1, -⟩ := u8read_ok hu
  rw [hdata] at ht
  split at h2
  · rename_i hne
    split at h2
    · exact absurd h2 (by simp)
    · rename_i hcond
      simp only [Except.ok.injEq] at h2
      subst h2
      refine ⟨⟨t, ht, rfl⟩, sent, w2, ?_, ?_, ?_⟩
      · rw [← hw1']
        exact hv1
      · intro h0
        exact absurd h0 hne
      · intro _
        constructor
        · intro hlen4
          cases hsc : splitChecked 4 w2 with
          | none =>
            exfalso
            unfold splitChecked at hsc
            rw [if_pos hlen4] at hsc
            exact Option.noConfusion hsc
          | some p =>
            obtain ⟨p1, p2⟩ := p
            obtain ⟨hp1, -, -⟩ := splitChecked_some hsc
            simp [hp1]
        · intro hlen4
          cases hsc : splitChecked 4 w2 with
          | some p =>
            have := (splitChecked_some hsc).2.2
            omega
          | none =>
            constructor
            · cases pol with
              | strict => exact absurd ⟨hsc, rfl⟩ hcond
              | lenient => rfl
            · simp
  · rename_i h0
    simp only [Except.ok.injEq] at h2
    subst h2
    have hsent : sent = 0 := not_not.mp h0
    refine ⟨⟨t, ht, rfl⟩, sent, w2, ?_, fun _ => rfl, ?_⟩
    · rw [← hw1']
      exact hv1
    · intro hne
      exact absurd hsent hne

/-- Claim C7 witness: the theorem applied to a concrete well-formed 31-byte
CTAB1 payload (non-zero sentinel, 4 trailing bytes) under the strict
policy. -/
theorem c7_ctab1_sentinel_witness :
    (∃ t, Table.tryFrom .strict ((ctab1Input.drop 20).take 6) .ctab1 = .ok t ∧
      (ctabOk (Ctab.read .strict (.ctab1 ctab1Input))).table = [t]) ∧
    (∃ sent rest, ctab1Input.drop 26 = sent :: rest ∧
      (sent = 0 → (ctabOk (Ctab.read .strict (.ctab1 ctab1Input))).special = none) ∧
      (sent ≠ 0 →
        (4 ≤ rest.length →
          (ctabOk (Ctab.read .strict (.ctab1 ctab1Input))).special = some (rest.take 4)) ∧
        (rest.length < 4 → Policy.strict = Policy.lenient ∧
          (ctabOk (Ctab.read .strict (.ctab1 ctab1Input))).special = none))) :=
  c7_ctab1_sentinel .strict ctab1Input (ctabOk (Ctab.read .strict (.ctab1 ctab1Input))) rfl

end Midly
